import Mathlib

/-!
Verification of the durable on-disk change queue of the krb5-sync plugin.

The definitions below are a shallow embedding of the queue subsystem:

* `src/plugin/queue.c` — `lock_queue`, `unlock_queue`, `queue_prefix`,
  `queue_timestamp`, `sync_queue_conflict`, `sync_queue_write`;
* `src/tools/krb5-sync.c` — `read_line`, `process_queue_file`;
* `src/plugin/general.c` — `instance_allowed`, `principal_allowed`,
  `sync_chpass`.

C strings are `List Char`; the queue directory is an association list from
file names to file contents together with an advisory-lock flag.  The
Kerberos library functions `krb5_unparse_name` and `krb5_parse_name` are
external collaborators and are modelled by `unparse_name` / `parse_name`
below, restricted to backslash quoting of the separator characters
`'/'`, `'@'` and `'\'` (the quoting of control characters is elided).
I/O failures of `write(2)` (short or failed writes) are modelled by an
explicit plan mapping each successive `write` call to the number of bytes
it transfers.
-/

set_option autoImplicit false

namespace KrbSync

/-- C strings (NUL-free) are lists of characters. -/
abbrev Str := List Char

/-- A Kerberos principal: name components plus a realm
(models `krb5_principal`). -/
structure Principal where
  components : List Str
  realm : Str
deriving DecidableEq

/-- Characters quoted by `krb5_unparse_name` in the modelled fragment. -/
def quoteNeeded (c : Char) : Bool :=
  c = '/' || c = '@' || c = '\\'

/-- Backslash-quote the separator characters of a name component or realm. -/
def escapeStr : Str → Str
  | [] => []
  | c :: s => if quoteNeeded c then '\\' :: c :: escapeStr s else c :: escapeStr s

/-- Join quoted components with the component separator `/`. -/
def joinComps : List Str → Str
  | [] => []
  | [c] => escapeStr c
  | c :: cs => escapeStr c ++ '/' :: joinComps cs

/-- Modelled `krb5_unparse_name`: quoted components joined by `/`,
followed by `@` and the quoted realm. -/
def unparse_name (p : Principal) : Str :=
  joinComps p.components ++ '@' :: escapeStr p.realm

/-- Remove backslash quoting (used for the realm part of parsing). -/
def unescape : Str → Str
  | [] => []
  | c :: rest =>
    if c = '\\' then
      match rest with
      | [] => [c]
      | d :: rest' => d :: unescape rest'
    else c :: unescape rest

/-- Worker for `parse_name`: `cur` is the current component reversed, `acc`
the completed components reversed. -/
def parseNameAux (defRealm : Str) : Str → Str → List Str → Principal
  | [], cur, acc => ⟨(cur.reverse :: acc).reverse, defRealm⟩
  | c :: rest, cur, acc =>
    if c = '\\' then
      match rest with
      | [] => ⟨((c :: cur).reverse :: acc).reverse, defRealm⟩
      | d :: rest' => parseNameAux defRealm rest' (d :: cur) acc
    else if c = '/' then parseNameAux defRealm rest [] (cur.reverse :: acc)
    else if c = '@' then ⟨(cur.reverse :: acc).reverse, unescape rest⟩
    else parseNameAux defRealm rest (c :: cur) acc

/-- Modelled `krb5_parse_name`: split an unquoted display string into
components at unescaped `/`, take the realm after an unescaped `@`, and use
the context's default realm when no realm is given. -/
def parse_name (defRealm : Str) (s : Str) : Principal :=
  parseNameAux defRealm s [] []

/-- Realm stripping as written inline in `sync_queue_write`
(src/plugin/queue.c:271-278): scan the display string, skipping a character
after each backslash, and cut at the first unescaped `@`. -/
def strip_realm : Str → Str
  | [] => []
  | c :: rest =>
    if c = '\\' then
      match rest with
      | [] => [c]
      | d :: rest' => c :: d :: strip_realm rest'
    else if c = '@' then []
    else c :: strip_realm rest

/-- Key derivation, `queue_prefix` (src/plugin/queue.c:104-132): collapse
`disable` into `enable`, truncate the display string at the first `@`
(`strchr`, which is not escape aware), replace `/` by `.`, and join with
the domain and operation. -/
def queue_prefix (p : Principal) (domain oper : Str) : Str :=
  let oper := if oper = "disable".data then "enable".data else oper
  let user := unparse_name p
  let user := user.takeWhile (fun c => c ≠ '@')
  let user := user.map (fun c => if c = '/' then '.' else c)
  user ++ '-' :: (domain ++ '-' :: (oper ++ ['-']))

/-- Escape-aware key derivation following the specification text of §4.2
(`strip everything from (and including) the realm separator onward; an
escaped @ is not a realm boundary`).  Stated only to be compared against
`queue_prefix` from the source. -/
def queue_prefix_spec (p : Principal) (domain oper : Str) : Str :=
  let oper := if oper = "disable".data then "enable".data else oper
  let user := strip_realm (unparse_name p)
  let user := user.map (fun c => if c = '/' then '.' else c)
  user ++ '-' :: (domain ++ '-' :: (oper ++ ['-']))

/-- Broken-down UTC time as produced by `gmtime_r` (fields as in `struct tm`,
with `tm_year` counting from 1900 and `tm_mon` from 0). -/
structure Tm where
  tm_year : Nat
  tm_mon : Nat
  tm_mday : Nat
  tm_hour : Nat
  tm_min : Nat
  tm_sec : Nat
deriving DecidableEq

/-- Decimal rendering zero-padded to a width, as `asprintf` `%0wd` for a
non-negative value. -/
def pad (w n : Nat) : Str :=
  let ds := Nat.toDigits 10 n
  List.replicate (w - ds.length) '0' ++ ds

/-- Timestamp generation, `queue_timestamp` (src/plugin/queue.c:139-160):
`%04d%02d%02dT%02d%02d%02dZ` after adding 1900 to the year and 1 to the
month. -/
def queue_timestamp (now : Tm) : Str :=
  pad 4 (now.tm_year + 1900) ++ pad 2 (now.tm_mon + 1) ++ pad 2 now.tm_mday
    ++ 'T' :: (pad 2 now.tm_hour ++ pad 2 now.tm_min ++ pad 2 now.tm_sec ++ ['Z'])

/-- A queue file: its byte content and its creation mode. -/
structure QFile where
  content : Str
  mode : Nat
deriving DecidableEq

/-- The queue directory: file names mapped to files, newest first. -/
abbrev Dir := List (Str × QFile)

/-- Name lookup in the directory. -/
def lookupFile : Dir → Str → Option QFile
  | [], _ => none
  | (m, f) :: d, n => if m = n then some f else lookupFile d n

/-- Existence test used to model `open(..., O_EXCL)` failure and `readdir`
scans. -/
def hasName (d : Dir) (n : Str) : Bool :=
  d.any (fun e => e.1 = n)

/-- Result of `unlink`: remove the first binding of the name. -/
def removeFile : Dir → Str → Dir
  | [], _ => []
  | (m, f) :: d, n => if m = n then d else (m, f) :: removeFile d n

/-- Append bytes to an existing file (one successful or partial `write`). -/
def appendFile : Dir → Str → Str → Dir
  | [], _, _ => []
  | (m, f) :: d, n, s =>
    if m = n then (m, ⟨f.content ++ s, f.mode⟩) :: d else (m, f) :: appendFile d n s

/-- Queue directory state: contents plus the advisory lock on `.lock`. -/
structure FS where
  dir : Dir
  locked : Bool
deriving DecidableEq

/-- Name of the lock file. -/
def lockName : Str := ".lock".data

/-- Locking, `lock_queue` (src/plugin/queue.c:57-84): open `.lock` with
`O_CREAT` mode 0644 (creating it if absent) and take the exclusive `flock`. -/
def lock_queue (fs : FS) : FS :=
  { dir := if hasName fs.dir lockName then fs.dir else (lockName, ⟨[], 0o644⟩) :: fs.dir
    locked := true }

/-- Unlocking, `unlock_queue` (src/plugin/queue.c:92-96): close the lock
descriptor. -/
def unlock_queue (fs : FS) : FS :=
  { fs with locked := false }

/-- Plugin configuration (struct `kadm5_hook_modinfo`, src/plugin/internal.h),
restricted to the fields the queue subsystem and `sync_chpass` read. -/
structure Config where
  queue_dir : Option Str
  ad_realm : Option Str
  ad_base_instance : Option Str
  ad_instances : List Str
  ad_queue_only : Bool

/-- Kerberos status codes, separating the bare `-1` returned by
`sync_queue_conflict` from the typed errors produced through
`sync_error_config` (KADM5_MISSING_KRB5_CONF_PARAMS) and
`sync_error_system` (errno). -/
inductive KrbCode where
  | ok
  | raw (n : Int)
  | configError
  | systemError
deriving DecidableEq

/-- Conflict check, `sync_queue_conflict` (src/plugin/queue.c:169-212):
return the bare code `-1` when no queue directory is configured (without
touching the output flag); otherwise lock, scan the directory for an entry
whose name starts with the derived key, unlock, and report. -/
def sync_queue_conflict (config : Config) (p : Principal)
    (domain oper : Str) (fs : FS) : KrbCode × Option Bool × FS :=
  match config.queue_dir with
  | none => (KrbCode.raw (-1), none, fs)
  | some _ =>
    let pfx := queue_prefix p domain oper
    let fs1 := lock_queue fs
    let confl := fs1.dir.any (fun e => List.isPrefixOf pfx e.1)
    (KrbCode.ok, some confl, unlock_queue fs1)

/-- Maximum number of same-second queue files tried, `MAX_QUEUE`
(src/plugin/queue.c:34). -/
def MAX_QUEUE : Nat := 100

/-- Candidate file name for sequence number `i`: `prefix timestamp "-" NN`. -/
def seqPath (base : Str) (i : Nat) : Str :=
  base ++ '-' :: pad 2 i

/-- Search loop of `sync_queue_write` (src/plugin/queue.c:250-262): try
`open(path, O_WRONLY|O_CREAT|O_EXCL, 0600)` for sequence numbers `i`,
`i+1`, ... while fuel lasts, returning the first sequence number whose
name does not yet exist. -/
def findSeqFrom (d : Dir) (base : Str) : Nat → Nat → Option Nat
  | _, 0 => none
  | i, fuel + 1 =>
    if hasName d (seqPath base i) then findSeqFrom d base (i + 1) fuel else some i

/-- Bytes transferred by the `k`-th `write(2)` call: `none` means the call
writes everything it was asked to write. -/
abbrev WritePlan := Nat → Option Nat

/-- The plan on which every `write` succeeds completely. -/
def planFull : WritePlan := fun _ => none

/-- The `WRITE_CHECK` sequence (src/plugin/queue.c:38-46, 280-290): write
each field in turn to the open descriptor, failing if the descriptor is
invalid (`fd = none`, as after loop exhaustion) or a `write` transfers
fewer bytes than requested.  Returns whether all writes completed and the
updated state. -/
def writeFields (fs : FS) (fd : Option Str) (fields : List Str)
    (plan : WritePlan) (k : Nat) : Bool × FS :=
  match fields, fd with
  | [], _ => (true, fs)
  | _ :: _, none => (false, fs)
  | s :: rest, some path =>
    let written := (plan k).elim s.length (fun m => min m s.length)
    let fs1 : FS := { fs with dir := appendFile fs.dir path (s.take written) }
    if written = s.length then writeFields fs1 (some path) rest plan (k + 1)
    else (false, fs1)

/-- Newline. -/
def nl : Str := ['\n']

/-- The newline-terminated fields written to a queue entry
(src/plugin/queue.c:280-290), one `write` call each. -/
def entryFields (user domain oper : Str) (password : Option Str) : List Str :=
  [user, nl, domain, nl, oper, nl] ++
    (match password with
     | some pw => [pw, nl]
     | none => [])

/-- Full content of a completely written queue entry. -/
def entry_content (user domain oper : Str) (password : Option Str) : Str :=
  (entryFields user domain oper password).foldr (· ++ ·) []

/-- Enqueue, `sync_queue_write` (src/plugin/queue.c:220-315): fail with a
configuration error when no queue directory is set; lock; take the
timestamp; find an unused sequence number by exclusive creation (the file
is created with mode 0600 at that point); strip the realm from the display
name escape-aware; write the fields, unlinking the partial file and
failing with a system error if any write is short; unlock on every path.
When the sequence loop exhausts all `MAX_QUEUE` names the descriptor stays
invalid, so the first `WRITE_CHECK` fails and the call returns the system
error with nothing created. -/
def sync_queue_write (config : Config) (p : Principal) (domain oper : Str)
    (password : Option Str) (now : Tm) (plan : WritePlan) (fs : FS) :
    KrbCode × FS :=
  match config.queue_dir with
  | none => (KrbCode.configError, fs)
  | some _ =>
    let pfx := queue_prefix p domain oper
    let fs1 := lock_queue fs
    let ts := queue_timestamp now
    let base := pfx ++ ts
    let user := strip_realm (unparse_name p)
    match findSeqFrom fs1.dir base 0 MAX_QUEUE with
    | some i =>
      let path := seqPath base i
      let fs2 : FS := { fs1 with dir := (path, ⟨[], 0o600⟩) :: fs1.dir }
      let r := writeFields fs2 (some path) (entryFields user domain oper password) plan 0
      if r.1 then (KrbCode.ok, unlock_queue r.2)
      else (KrbCode.systemError,
            unlock_queue { r.2 with dir := removeFile r.2.dir path })
    | none =>
      let r := writeFields fs1 none (entryFields user domain oper password) plan 0
      (KrbCode.systemError, unlock_queue r.2)

/-- Size of the stack line buffers in src/tools/krb5-sync.c (`char
buffer[BUFSIZ]`, glibc value). -/
def BUFSIZ : Nat := 8192

/-- Behaviour of `fgets(buffer, n, file)` on the remaining content: collect
at most `n` characters, stopping after a newline. -/
def takeLine : Nat → Str → Str
  | 0, _ => []
  | _, [] => []
  | n + 1, c :: rest => if c = '\n' then [c] else c :: takeLine n rest

/-- Result of `read_line`: either the line with its newline stripped plus
the rest of the file, or the fatal `exit(1)` paths for a missing or
unterminated line. -/
inductive LineResult where
  | ok (line rest : Str)
  | err
deriving DecidableEq

/-- Line reader, `read_line` (src/tools/krb5-sync.c:77-90): `fgets` into a
`BUFSIZ` buffer (so at most `BUFSIZ - 1` characters), fail at end of file
or when the data read does not end in a newline, and cut the newline off. -/
def read_line (content : Str) : LineResult :=
  match content with
  | [] => LineResult.err
  | _ :: _ =>
    let buf := takeLine (BUFSIZ - 1) content
    if buf.getLast? = some '\n' then LineResult.ok buf.dropLast (content.drop buf.length)
    else LineResult.err

/-- An action requested from the Delivery collaborator: a password change
(`pwupdate_ad_change`) or a status change (`pwupdate_ad_status`). -/
inductive QAction where
  | password (pw : Str)
  | status (enable : Bool)
deriving DecidableEq

/-- One invocation of the Delivery collaborator: the principal parsed back
from the queue file and the requested action. -/
structure DeliveryCall where
  principal : Principal
  action : QAction
deriving DecidableEq

/-- Observable outcome of one `krb5-sync -f` replay: the delivery calls
made (in order), the process exit code, and whether the queue file was
unlinked. -/
structure ReplayResult where
  calls : List DeliveryCall
  exitCode : Nat
  deleted : Bool
deriving DecidableEq

/-- Replay, `process_queue_file` (src/tools/krb5-sync.c:106-175) together
with `ad_password` / `ad_status` (src/tools/krb5-sync.c:33-70): open the
file, read the account line and parse it into a principal, require the
domain line to be `ad` and the operation line to be `enable`, `disable` or
`password` (reading one more line as the new password in the last case),
dispatch to delivery — which prints and exits 1 on failure — and on
success close and unlink the file, exiting 0.  Every failure path exits 1
without touching the file. -/
def process_queue_file (defRealm : Str) (deliver : DeliveryCall → Bool)
    (filename : Str) (fs : FS) : ReplayResult × FS :=
  match lookupFile fs.dir filename with
  | none => (⟨[], 1, false⟩, fs)
  | some file =>
    match read_line file.content with
    | LineResult.err => (⟨[], 1, false⟩, fs)
    | LineResult.ok userLine r1 =>
      let prin := parse_name defRealm userLine
      match read_line r1 with
      | LineResult.err => (⟨[], 1, false⟩, fs)
      | LineResult.ok domLine r2 =>
        if domLine = "ad".data then
          match read_line r2 with
          | LineResult.err => (⟨[], 1, false⟩, fs)
          | LineResult.ok opLine r3 =>
            if opLine = "enable".data || opLine = "disable".data then
              let call : DeliveryCall := ⟨prin, QAction.status (opLine = "enable".data)⟩
              if deliver call then
                (⟨[call], 0, true⟩, { fs with dir := removeFile fs.dir filename })
              else (⟨[call], 1, false⟩, fs)
            else if opLine = "password".data then
              match read_line r3 with
              | LineResult.err => (⟨[], 1, false⟩, fs)
              | LineResult.ok pwLine _ =>
                let call : DeliveryCall := ⟨prin, QAction.password pwLine⟩
                if deliver call then
                  (⟨[call], 0, true⟩, { fs with dir := removeFile fs.dir filename })
                else (⟨[call], 1, false⟩, fs)
            else (⟨[], 1, false⟩, fs)
        else (⟨[], 1, false⟩, fs)

/-- Success of the required `read_line` sequence of `process_queue_file`:
account, domain and operation lines, plus the password line when the
operation line is `password`.  A file is malformed in the sense of §4.6
exactly when this is `false`. -/
def wellFormedEntry (content : Str) : Bool :=
  match read_line content with
  | LineResult.err => false
  | LineResult.ok _ r1 =>
    match read_line r1 with
    | LineResult.err => false
    | LineResult.ok _ r2 =>
      match read_line r2 with
      | LineResult.err => false
      | LineResult.ok opLine r3 =>
        if opLine = "password".data then
          match read_line r3 with
          | LineResult.err => false
          | LineResult.ok _ _ => true
        else true

/-- External collaborators of `sync_chpass` (src/plugin/general.c): the
result of the `sync_instance_exists` LDAP lookup and of the synchronous
`sync_ad_chpass` delivery. -/
structure Collab where
  instance_exists : Principal → Str → Bool
  ad_chpass : Principal → Str → KrbCode

/-- Instance filter, `instance_allowed` (src/plugin/general.c:100-116). -/
def instance_allowed (config : Config) (inst : Option Str) : Bool :=
  match inst with
  | none => false
  | some i =>
    (match config.ad_base_instance with
     | some b => b = i
     | none => false)
    || config.ad_instances.any (fun s => s = i)

/-- Principal filter, `principal_allowed` (src/plugin/general.c:136-185):
single-part principals are skipped when the `ad_base_instance` variant
exists; multi-part principals are skipped unless their instance is
allowed. -/
def principal_allowed (config : Config) (co : Collab) (p : Principal)
    (pwchange : Bool) : Bool :=
  let ncomp := p.components.length
  if pwchange && ncomp = 1 && config.ad_base_instance.isSome then
    !(match config.ad_base_instance with
      | some b => co.instance_exists p b
      | none => false)
  else if ncomp > 1 then
    instance_allowed config (p.components.get? 1)
  else true

/-- Result of `sync_chpass`: the status code, the queue state, and whether
synchronous delivery (`sync_ad_chpass`) was attempted. -/
structure ChpassResult where
  code : KrbCode
  fs : FS
  attempted : Bool
deriving DecidableEq

/-- Password-change orchestration, `sync_chpass`
(src/plugin/general.c:203-249): skip silently without `ad_realm` or
password; skip disallowed principals; check for a queued conflict,
propagating any error from the check; queue on conflict or when
`ad_queue_only` is set; otherwise attempt delivery and queue on its
failure. -/
def sync_chpass (config : Config) (co : Collab) (p : Principal)
    (password : Option Str) (now : Tm) (plan : WritePlan) (fs : FS) :
    ChpassResult :=
  match config.ad_realm with
  | none => ⟨KrbCode.ok, fs, false⟩
  | some _ =>
    match password with
    | none => ⟨KrbCode.ok, fs, false⟩
    | some pw =>
      if principal_allowed config co p true then
        let r := sync_queue_conflict config p "ad".data "password".data fs
        if r.1 ≠ KrbCode.ok then ⟨r.1, r.2.2, false⟩
        else if r.2.1.getD true || config.ad_queue_only then
          let w := sync_queue_write config p "ad".data "password".data (some pw) now plan r.2.2
          ⟨w.1, w.2, false⟩
        else
          let d := co.ad_chpass p pw
          if d ≠ KrbCode.ok then
            let w := sync_queue_write config p "ad".data "password".data (some pw) now plan r.2.2
            ⟨w.1, w.2, true⟩
          else ⟨KrbCode.ok, r.2.2, true⟩
      else ⟨KrbCode.ok, fs, false⟩

/-- Name of the queue entry file created for sequence number `k` (the part
of `path` below the queue directory, src/plugin/queue.c:253-254). -/
def entryName (p : Principal) (domain oper : Str) (now : Tm) (k : Nat) : Str :=
  seqPath ( queue_prefix p domain oper ++ queue_timestamp now) k

/-- The delivery call the replayer is expected to make for an entry queued
for `p` with the given operation and payload (§6: `deliver(account,
operation, payload_or_null)`). -/
def deliveryFor (p : Principal) (oper : Str) (password : Option Str) :
    DeliveryCall :=
  ⟨p, if oper = "password".data then QAction.password (password.getD [])
      else QAction.status (oper = "enable".data)⟩

/-- Iterated enqueue: `enqueueN … n fs` is the state after calling
`sync_queue_write` `n` times in a row with the same arguments. -/
def enqueueN (config : Config) (p : Principal) (domain oper : Str)
    (password : Option Str) (now : Tm) (plan : WritePlan) : Nat → FS → FS
  | 0, fs => fs
  | n + 1, fs =>
    (sync_queue_write config p domain oper password now plan
      (enqueueN config p domain oper password now plan n fs)).2

/-! Case equations for the match-based definitions, and a helper for
unquoted characters. -/

theorem quoteNeeded_false {c : Char} (h : ¬quoteNeeded c = true) :
    c ≠ '/' ∧ c ≠ '@' ∧ c ≠ '\\' := by
  refine ⟨?_, ?_, ?_⟩ <;> intro hc <;> subst hc <;> simp [quoteNeeded] at h

theorem escapeStr_cons (c : Char) (s : Str) :
    escapeStr (c :: s) =
      if quoteNeeded c then '\\' :: c :: escapeStr s else c :: escapeStr s := rfl

theorem unescape_cons (c : Char) (rest : Str) :
    unescape (c :: rest) =
      if c = '\\' then
        (match rest with
         | [] => [c]
         | d :: rest' => d :: unescape rest')
      else c :: unescape rest := by
  rw [unescape.eq_def]
  rfl

theorem strip_realm_cons (c : Char) (rest : Str) :
    strip_realm (c :: rest) =
      if c = '\\' then
        (match rest with
         | [] => [c]
         | d :: rest' => c :: d :: strip_realm rest')
      else if c = '@' then []
      else c :: strip_realm rest := by
  rw [strip_realm.eq_def]
  rfl

theorem parseNameAux_nil (dR cur : Str) (acc : List Str) :
    parseNameAux dR [] cur acc = ⟨(cur.reverse :: acc).reverse, dR⟩ := by
  rw [parseNameAux.eq_def]

theorem parseNameAux_cons (dR : Str) (c : Char) (rest cur : Str) (acc : List Str) :
    parseNameAux dR (c :: rest) cur acc =
      if c = '\\' then
        (match rest with
         | [] => (⟨((c :: cur).reverse :: acc).reverse, dR⟩ : Principal)
         | d :: rest' => parseNameAux dR rest' (d :: cur) acc)
      else if c = '/' then parseNameAux dR rest [] (cur.reverse :: acc)
      else if c = '@' then ⟨(cur.reverse :: acc).reverse, unescape rest⟩
      else parseNameAux dR rest (c :: cur) acc := by
  rw [parseNameAux.eq_def]
  rfl

theorem parseNameAux_pair (dR : Str) (d : Char) (rest cur : Str) (acc : List Str) :
    parseNameAux dR ('\\' :: d :: rest) cur acc
      = parseNameAux dR rest (d :: cur) acc := by
  rw [parseNameAux_cons, if_pos rfl]

theorem parseNameAux_slash (dR : Str) (rest cur : Str) (acc : List Str) :
    parseNameAux dR ('/' :: rest) cur acc
      = parseNameAux dR rest [] (cur.reverse :: acc) := by
  rw [parseNameAux_cons, if_neg (by decide : ¬('/' : Char) = '\\'), if_pos rfl]

theorem parseNameAux_chr (dR : Str) {c : Char} (h1 : c ≠ '\\') (h2 : c ≠ '/')
    (h3 : c ≠ '@') (rest cur : Str) (acc : List Str) :
    parseNameAux dR (c :: rest) cur acc = parseNameAux dR rest (c :: cur) acc := by
  rw [parseNameAux_cons, if_neg h1, if_neg h2, if_neg h3]

/-! Lemmas about quoting, realm stripping and parsing. -/

/-- Strings consisting of backslash-quote pairs and plain characters other
than `@` and backslash — the shape of `escapeStr` output and of joins of
such strings. -/
inductive EscSafe : Str → Prop
  | nil : EscSafe []
  | pair (c : Char) {s : Str} : EscSafe s → EscSafe ('\\' :: c :: s)
  | chr (c : Char) {s : Str} : c ≠ '@' → c ≠ '\\' → EscSafe s → EscSafe (c :: s)

theorem escSafe_append {s t : Str} (hs : EscSafe s) (ht : EscSafe t) :
    EscSafe (s ++ t) := by
  induction hs with
  | nil => exact ht
  | pair c _ ih => exact EscSafe.pair c ih
  | chr c h1 h2 _ ih => exact EscSafe.chr c h1 h2 ih

theorem escSafe_escapeStr (s : Str) : EscSafe (escapeStr s) := by
  induction s with
  | nil => exact EscSafe.nil
  | cons c s ih =>
    by_cases h : quoteNeeded c
    · rw [escapeStr_cons, if_pos h]
      exact EscSafe.pair c ih
    · obtain ⟨_, h2, h3⟩ := quoteNeeded_false h
      rw [escapeStr_cons, if_neg h]
      exact EscSafe.chr c h2 h3 ih

theorem escSafe_joinComps (cs : List Str) : EscSafe (joinComps cs) := by
  induction cs with
  | nil => exact EscSafe.nil
  | cons c cs ih =>
    cases cs with
    | nil => exact escSafe_escapeStr c
    | cons d ds =>
      exact escSafe_append (escSafe_escapeStr c)
        (EscSafe.chr '/' (by decide) (by decide) ih)

theorem strip_realm_escSafe {s : Str} (h : EscSafe s) (t : Str) :
    strip_realm (s ++ '@' :: t) = s := by
  induction h with
  | nil =>
    rw [List.nil_append, strip_realm_cons, if_neg (by decide), if_pos rfl]
  | pair c _ ih =>
    rw [List.cons_append, List.cons_append, strip_realm_cons, if_pos rfl]
    exact congrArg (fun s => '\\' :: c :: s) ih
  | chr c h1 h2 _ ih =>
    rw [List.cons_append, strip_realm_cons, if_neg h2, if_neg h1]
    exact congrArg (c :: ·) ih

/-- The account line written by `sync_queue_write` is the quoted component
join: the escape-aware scan cuts exactly at the realm separator appended
by `krb5_unparse_name`, never at a quoted `@` inside a component. -/
theorem strip_realm_unparse (p : Principal) :
    strip_realm (unparse_name p) = joinComps p.components :=
  strip_realm_escSafe (escSafe_joinComps _) _

theorem unescape_escapeStr (s : Str) : unescape (escapeStr s) = s := by
  induction s with
  | nil => rfl
  | cons c s ih =>
    by_cases h : quoteNeeded c
    · rw [escapeStr_cons, if_pos h, unescape_cons, if_pos rfl]
      exact congrArg (c :: ·) ih
    · obtain ⟨_, _, h3⟩ := quoteNeeded_false h
      rw [escapeStr_cons, if_neg h, unescape_cons, if_neg h3]
      exact congrArg (c :: ·) ih

theorem parseNameAux_escapeStr (dR : Str) (comp : Str) :
    ∀ (s cur : Str) (acc : List Str),
      parseNameAux dR (escapeStr comp ++ s) cur acc
        = parseNameAux dR s (comp.reverse ++ cur) acc := by
  induction comp with
  | nil => intro s cur acc; rfl
  | cons c cs ih =>
    intro s cur acc
    have ha : (c :: cs).reverse ++ cur = cs.reverse ++ (c :: cur) := by
      simp
    by_cases h : quoteNeeded c
    · have he : escapeStr (c :: cs) ++ s = '\\' :: c :: (escapeStr cs ++ s) := by
        rw [escapeStr_cons, if_pos h]; rfl
      rw [he, parseNameAux_pair, ih, ha]
    · obtain ⟨h1, h2, h3⟩ := quoteNeeded_false h
      have he : escapeStr (c :: cs) ++ s = c :: (escapeStr cs ++ s) := by
        rw [escapeStr_cons, if_neg h]; rfl
      rw [he, parseNameAux_chr dR h3 h1 h2, ih, ha]

theorem parseNameAux_joinComps (dR : Str) (c : Str) (cs : List Str) :
    ∀ (cur : Str) (acc : List Str),
      parseNameAux dR (joinComps (c :: cs)) cur acc
        = ⟨acc.reverse ++ (cur.reverse ++ c) :: cs, dR⟩ := by
  induction cs generalizing c with
  | nil =>
    intro cur acc
    have h : joinComps [c] = escapeStr c ++ [] := by simp [joinComps]
    rw [h, parseNameAux_escapeStr, parseNameAux_nil]
    simp
  | cons d ds ih =>
    intro cur acc
    have h : joinComps (c :: d :: ds) = escapeStr c ++ '/' :: joinComps (d :: ds) := rfl
    rw [h, parseNameAux_escapeStr, parseNameAux_slash, ih]
    simp [List.append_assoc]

/-- Parsing the realm-stripped account line back with the context's default
realm recovers the original components. -/
theorem parse_name_joinComps (dR : Str) (c : Str) (cs : List Str) :
    parse_name dR (joinComps (c :: cs)) = ⟨c :: cs, dR⟩ := by
  rw [parse_name, parseNameAux_joinComps]
  simp

theorem nlFree_escapeStr {s : Str} (h : '\n' ∉ s) : '\n' ∉ escapeStr s := by
  induction s with
  | nil => simp [escapeStr]
  | cons c s ih =>
    have hc : c ≠ '\n' := fun hc => h (hc ▸ List.mem_cons_self c s)
    have hs : '\n' ∉ s := fun hs => h (List.mem_cons_of_mem c hs)
    by_cases hq : quoteNeeded c
    · simp [escapeStr, hq]
      exact ⟨fun hc' => hc hc'.symm, ih hs⟩
    · simp [escapeStr, hq]
      exact ⟨fun hc' => hc hc'.symm, ih hs⟩

theorem nlFree_joinComps {cs : List Str} (h : ∀ c ∈ cs, '\n' ∉ c) :
    '\n' ∉ joinComps cs := by
  induction cs with
  | nil => simp [joinComps]
  | cons c cs ih =>
    cases cs with
    | nil => exact nlFree_escapeStr (h c (List.mem_cons_self c []))
    | cons d ds =>
      have : joinComps (c :: d :: ds) = escapeStr c ++ '/' :: joinComps (d :: ds) := rfl
      rw [this]
      intro hmem
      rcases List.mem_append.mp hmem with h1 | h1
      · exact nlFree_escapeStr (h c (List.mem_cons_self _ _)) h1
      · rcases List.mem_cons.mp h1 with h2 | h2
        · exact absurd h2 (by decide)
        · exact ih (fun x hx => h x (List.mem_cons_of_mem c hx)) h2

/-! Lemmas about line reading. -/

theorem takeLine_append (l r : Str) : ∀ n, '\n' ∉ l → l.length + 1 ≤ n →
    takeLine n (l ++ '\n' :: r) = l ++ ['\n'] := by
  induction l with
  | nil =>
    intro n _ hn
    cases n with
    | zero => omega
    | succ n =>
      show takeLine (n + 1) ('\n' :: r) = ['\n']
      rw [takeLine, if_pos rfl]
  | cons c l ih =>
    intro n hmem hn
    cases n with
    | zero => simp at hn
    | succ n =>
      have hc : c ≠ '\n' := fun h => hmem (h ▸ List.mem_cons_self c l)
      have hl : '\n' ∉ l := fun h => hmem (List.mem_cons_of_mem c h)
      show takeLine (n + 1) (c :: (l ++ '\n' :: r)) = c :: (l ++ ['\n'])
      rw [takeLine, if_neg hc, ih n hl (by simp at hn; omega)]

/-- Reading a complete newline-terminated line that fits the `BUFSIZ`
buffer yields the line without its newline and the remaining content. -/
theorem read_line_eq (l r : Str) (hmem : '\n' ∉ l)
    (hlen : l.length ≤ BUFSIZ - 2) :
    read_line (l ++ '\n' :: r) = LineResult.ok l r := by
  have htake : takeLine (BUFSIZ - 1) (l ++ '\n' :: r) = l ++ ['\n'] :=
    takeLine_append l r (BUFSIZ - 1) hmem (by simp [BUFSIZ] at hlen ⊢; omega)
  have hdrop : (l ++ '\n' :: r).drop (l ++ ['\n']).length = r := by
    have h : l ++ '\n' :: r = (l ++ ['\n']) ++ r := by simp
    rw [h, List.drop_left]
  obtain ⟨c, s, hcs⟩ : ∃ c s, l ++ '\n' :: r = c :: s := by
    cases l <;> exact ⟨_, _, rfl⟩
  rw [hcs] at htake hdrop ⊢
  rw [read_line, htake]
  simp only [List.getLast?_concat, List.dropLast_concat, if_pos]
  simpa using hdrop

/-! Lemmas about the directory model and the enqueue loop. -/

theorem lookupFile_head (n : Str) (f : QFile) (d : Dir) :
    lookupFile ((n, f) :: d) n = some f := by
  simp [lookupFile]

theorem removeFile_head (n : Str) (f : QFile) (d : Dir) :
    removeFile ((n, f) :: d) n = d := by
  simp [removeFile]

theorem appendFile_head (n : Str) (f : QFile) (d : Dir) (s : Str) :
    appendFile ((n, f) :: d) n s = (n, ⟨f.content ++ s, f.mode⟩) :: d := by
  simp [appendFile]

theorem hasName_cons (e : Str × QFile) (d : Dir) (n : Str) :
    hasName (e :: d) n = (decide (e.1 = n) || hasName d n) := by
  simp [hasName]

theorem hasName_append (d1 d2 : Dir) (n : Str) :
    hasName (d1 ++ d2) n = (hasName d1 n || hasName d2 n) := by
  simp [hasName, List.any_append]

theorem hasName_lock_queue (fs : FS) :
    hasName (lock_queue fs).dir lockName = true := by
  rw [lock_queue]
  by_cases h : hasName fs.dir lockName
  · simp [h]
  · simp only [h, if_neg]
    simp [hasName_cons]

/-- Locking an already-locked-file-bearing state does not change the
directory listing. -/
theorem lock_queue_dir_of_hasName {fs : FS} (h : hasName fs.dir lockName = true) :
    (lock_queue fs).dir = fs.dir := by
  simp [lock_queue, h]

/-- Writing every field with fully-successful writes appends their
concatenation to the (front-positioned) open file. -/
theorem writeFields_planFull (fields : List Str) :
    ∀ (n : Str) (f : QFile) (d : Dir) (b : Bool) (k : Nat),
      writeFields ⟨(n, f) :: d, b⟩ (some n) fields planFull k
        = (true, ⟨(n, ⟨f.content ++ fields.foldr (· ++ ·) [], f.mode⟩) :: d, b⟩) := by
  induction fields with
  | nil =>
    intro n f d b k
    rw [writeFields]
    cases f
    simp
  | cons s rest ih =>
    intro n f d b k
    rw [writeFields]
    simp only [planFull, Option.elim, List.take_length, if_pos rfl, appendFile_head]
    rw [ih]
    simp [List.append_assoc]

/-- The sequence search succeeds with the first free number. -/
theorem findSeqFrom_found (d : Dir) (base : Str) (k : Nat)
    (hfree : hasName d (seqPath base k) = false) :
    ∀ (fuel i : Nat), i ≤ k → k < i + fuel →
      (∀ j, i ≤ j → j < k → hasName d (seqPath base j) = true) →
      findSeqFrom d base i fuel = some k := by
  intro fuel
  induction fuel with
  | zero => intro i h1 h2 _; omega
  | succ fuel ih =>
    intro i h1 h2 hall
    rw [findSeqFrom]
    rcases Nat.eq_or_lt_of_le h1 with h | h
    · subst h
      simp [hfree]
    · rw [if_pos (by simpa using hall i (Nat.le_refl i) h)]
      exact ih (i + 1) h (by omega) (fun j hj1 hj2 => hall j (by omega) hj2)

/-- The sequence search exhausts when every candidate name exists. -/
theorem findSeqFrom_none (d : Dir) (base : Str) :
    ∀ (fuel i : Nat),
      (∀ j, i ≤ j → j < i + fuel → hasName d (seqPath base j) = true) →
      findSeqFrom d base i fuel = none := by
  intro fuel
  induction fuel with
  | zero => intro i _; rfl
  | succ fuel ih =>
    intro i hall
    rw [findSeqFrom,
        if_pos (by simpa using hall i (Nat.le_refl i) (by omega))]
    exact ih (i + 1) (fun j hj1 hj2 => hall j (by omega) (by omega))

set_option maxRecDepth 10000 in
/-- Two-digit zero-padded sequence numbers below `MAX_QUEUE` are distinct. -/
theorem pad2_inj : ∀ i < 100, ∀ j < 100, pad 2 i = pad 2 j → i = j := by decide

theorem seqPath_inj {base : Str} {i j : Nat} (hi : i < 100) (hj : j < 100)
    (h : seqPath base i = seqPath base j) : i = j := by
  apply pad2_inj i hi j hj
  have h2 : '-' :: pad 2 i = '-' :: pad 2 j := List.append_cancel_left h
  exact List.cons_injective.eq_iff.mp h2

set_option maxRecDepth 10000 in
theorem pad2_getLast_digit : ∀ i < 100, (pad 2 i).getLast?.elim false Char.isDigit = true := by
  decide

/-- A queue entry name never collides with the lock file. -/
theorem seqPath_ne_lockName (base : Str) {i : Nat} (hi : i < 100) :
    seqPath base i ≠ lockName := by
  intro h
  have hne : pad 2 i ≠ [] := by
    have := pad2_getLast_digit i hi
    intro hnil
    rw [hnil] at this
    simp at this
  have h1 : (seqPath base i).getLast? = (pad 2 i).getLast? := by
    rw [seqPath, show base ++ '-' :: pad 2 i = (base ++ ['-']) ++ pad 2 i by simp,
        List.getLast?_append]
    cases hp : (pad 2 i).getLast? with
    | none => exact absurd (List.getLast?_eq_none_iff.mp hp) hne
    | some c => rfl
  have h2 := pad2_getLast_digit i hi
  rw [h] at h1
  rw [← h1] at h2
  exact absurd h2 (by decide)

/-- Whatever the write plan does, `writeFields` on a file at the front of
the directory only ever touches that file. -/
theorem writeFields_shape (fields : List Str) :
    ∀ (n : Str) (f : QFile) (d : Dir) (b : Bool) (plan : WritePlan) (k : Nat),
      ∃ f', (writeFields ⟨(n, f) :: d, b⟩ (some n) fields plan k).2 = ⟨(n, f') :: d, b⟩ := by
  induction fields with
  | nil =>
    intro n f d b plan k
    exact ⟨f, rfl⟩
  | cons s rest ih =>
    intro n f d b plan k
    rw [writeFields]
    simp only [appendFile_head]
    by_cases h : (plan k).elim s.length (fun m => min m s.length) = s.length
    · rw [if_pos h]
      exact ih n _ d b plan (k + 1)
    · rw [if_neg h]
      exact ⟨_, rfl⟩

/-- One successful enqueue: with the queue configured, all writes complete,
sequence numbers below `k` taken and `k` free, `sync_queue_write` returns
success and the new state is exactly the old (locked) directory with the
entry for sequence `k` in front, with mode 0600 and the four (or three)
newline-terminated fields, and the lock released. -/
theorem sync_queue_write_step (config : Config) (qd : Str)
    (hqd : config.queue_dir = some qd) (p : Principal) (domain oper : Str)
    (password : Option Str) (now : Tm) (fs : FS) (k : Nat) (hk : k < 100)
    (hfree : hasName (lock_queue fs).dir
      (seqPath ( queue_prefix p domain oper ++ queue_timestamp now) k) = false)
    (hprev : ∀ j, j < k → hasName (lock_queue fs).dir
      (seqPath ( queue_prefix p domain oper ++ queue_timestamp now) j) = true) :
    sync_queue_write config p domain oper password now planFull fs
      = (KrbCode.ok,
         ⟨(seqPath ( queue_prefix p domain oper ++ queue_timestamp now) k,
           ⟨entry_content (strip_realm (unparse_name p)) domain oper password, 0o600⟩)
            :: (lock_queue fs).dir, false⟩) := by
  rw [sync_queue_write, hqd]
  simp only
  rw [show MAX_QUEUE = 100 from rfl,
      findSeqFrom_found _ _ k hfree 100 0 (Nat.zero_le k) (by omega)
        (fun j _ hj => hprev j hj)]
  simp only
  rw [show (lock_queue fs).locked = true from rfl]
  have hw := writeFields_planFull
    (entryFields (strip_realm (unparse_name p)) domain oper password)
    (seqPath ( queue_prefix p domain oper ++ queue_timestamp now) k)
    ⟨[], 0o600⟩ (lock_queue fs).dir true 0
  rw [hw]
  simp [unlock_queue, entry_content]

/-- Exhaustion: when every one of the 100 candidate names already exists,
the descriptor stays invalid, the first `WRITE_CHECK` fails, and the call
returns the system error having created nothing (the lock again
released). -/
theorem sync_queue_write_exhausted (config : Config) (qd : Str)
    (hqd : config.queue_dir = some qd) (p : Principal) (domain oper : Str)
    (password : Option Str) (now : Tm) (plan : WritePlan) (fs : FS)
    (hall : ∀ i, i < 100 → hasName (lock_queue fs).dir
      (seqPath ( queue_prefix p domain oper ++ queue_timestamp now) i) = true) :
    sync_queue_write config p domain oper password now plan fs
      = (KrbCode.systemError, ⟨(lock_queue fs).dir, false⟩) := by
  rw [sync_queue_write, hqd]
  simp only
  rw [show MAX_QUEUE = 100 from rfl,
      findSeqFrom_none _ _ 100 0 (fun j _ hj => hall j (by omega))]
  simp only
  obtain ⟨rest, hent⟩ : ∃ rest,
      entryFields (strip_realm (unparse_name p)) domain oper password
        = strip_realm (unparse_name p) :: rest := ⟨_, rfl⟩
  rw [hent, writeFields]
  rfl

/-- Failed or short write: when a slot was created but the field writes do
not all complete, the call unlinks the partial file — restoring the locked
directory exactly — releases the lock and returns the system error. -/
theorem sync_queue_write_write_failure (config : Config) (qd : Str)
    (hqd : config.queue_dir = some qd) (p : Principal) (domain oper : Str)
    (password : Option Str) (now : Tm) (plan : WritePlan) (fs : FS)
    (k : Nat) (hk : k < 100)
    (hfree : hasName (lock_queue fs).dir
      (seqPath ( queue_prefix p domain oper ++ queue_timestamp now) k) = false)
    (hprev : ∀ j, j < k → hasName (lock_queue fs).dir
      (seqPath ( queue_prefix p domain oper ++ queue_timestamp now) j) = true)
    (hfail : (writeFields
      ⟨(seqPath ( queue_prefix p domain oper ++ queue_timestamp now) k,
        ⟨[], 0o600⟩) :: (lock_queue fs).dir, true⟩
      (some (seqPath ( queue_prefix p domain oper ++ queue_timestamp now) k))
      (entryFields (strip_realm (unparse_name p)) domain oper password)
      plan 0).1 = false) :
    sync_queue_write config p domain oper password now plan fs
      = (KrbCode.systemError, ⟨(lock_queue fs).dir, false⟩) := by
  rw [sync_queue_write, hqd]
  simp only
  rw [show MAX_QUEUE = 100 from rfl,
      findSeqFrom_found _ _ k hfree 100 0 (Nat.zero_le k) (by omega)
        (fun j _ hj => hprev j hj)]
  simp only
  rw [show (lock_queue fs).locked = true from rfl]
  obtain ⟨f', hshape⟩ := writeFields_shape
    (entryFields (strip_realm (unparse_name p)) domain oper password)
    (seqPath ( queue_prefix p domain oper ++ queue_timestamp now) k)
    ⟨[], 0o600⟩ (lock_queue fs).dir true plan 0
  rw [hfail, if_neg (by simp), hshape]
  simp [unlock_queue, removeFile_head]

/-! Lemmas about the replayer. -/

/-- Replay dichotomy: either a run leaves the state untouched, exits 1 and
deletes nothing — or it exits 0, made exactly one delivery call which
succeeded, and removed exactly the processed file.  In particular
successful delivery is the only path that removes a queue entry. -/
theorem process_queue_file_cases (dR : Str) (deliver : DeliveryCall → Bool)
    (filename : Str) (fs : FS) :
    ((process_queue_file dR deliver filename fs).2 = fs
      ∧ (process_queue_file dR deliver filename fs).1.exitCode = 1
      ∧ (process_queue_file dR deliver filename fs).1.deleted = false
      ∧ (process_queue_file dR deliver filename fs).1.calls.length ≤ 1)
    ∨ ((process_queue_file dR deliver filename fs).1.exitCode = 0
      ∧ (process_queue_file dR deliver filename fs).1.deleted = true
      ∧ (∃ c, (process_queue_file dR deliver filename fs).1.calls = [c]
          ∧ deliver c = true)
      ∧ (process_queue_file dR deliver filename fs).2
          = ⟨removeFile fs.dir filename, fs.locked⟩) := by
  rw [process_queue_file]
  dsimp only
  repeat' split
  all_goals
    first
      | exact Or.inl ⟨rfl, rfl, rfl, by simp⟩
      | (rename_i h
         exact Or.inr ⟨rfl, rfl, ⟨_, rfl, h⟩, rfl⟩)

/-- Replaying a complete password entry makes exactly one delivery call
carrying the parsed account and the stored password; on success the entry
is removed, on failure everything is left as it was with exit code 1. -/
theorem process_queue_file_password (dR : Str) (deliver : DeliveryCall → Bool)
    (filename : Str) (fs : FS) (mode : Nat) (u pw : Str)
    (hu : '\n' ∉ u) (hul : u.length ≤ BUFSIZ - 2)
    (hpw : '\n' ∉ pw) (hpwl : pw.length ≤ BUFSIZ - 2)
    (hlook : lookupFile fs.dir filename
      = some ⟨entry_content u "ad".data "password".data (some pw), mode⟩) :
    process_queue_file dR deliver filename fs
      = (if deliver ⟨parse_name dR u, QAction.password pw⟩
         then (⟨[⟨parse_name dR u, QAction.password pw⟩], 0, true⟩,
               ⟨removeFile fs.dir filename, fs.locked⟩)
         else (⟨[⟨parse_name dR u, QAction.password pw⟩], 1, false⟩, fs)) := by
  have hcontent : entry_content u "ad".data "password".data (some pw)
      = u ++ '\n' :: ("ad".data ++ '\n' ::
          ("password".data ++ '\n' :: (pw ++ '\n' :: []))) := by
    simp [entry_content, entryFields, nl]
  have h1 := read_line_eq u
    ("ad".data ++ '\n' :: ("password".data ++ '\n' :: (pw ++ '\n' :: []))) hu hul
  have h2 := read_line_eq "ad".data
    ("password".data ++ '\n' :: (pw ++ '\n' :: [])) (by decide) (by decide)
  have h3 := read_line_eq "password".data (pw ++ '\n' :: [])
    (by decide) (by decide)
  have h4 := read_line_eq pw [] hpw hpwl
  rw [process_queue_file, hlook]
  simp only [hcontent, h1, h2, h3, h4,
    if_neg (by decide :
      ¬("password".data = "enable".data || "password".data = "disable".data) = true)]
  simp

/-- Replaying a complete status entry (operation `enable` or `disable`)
makes exactly one delivery call with the parsed account and the
corresponding status flag; deletion and exit behave as for passwords. -/
theorem process_queue_file_status (dR : Str) (deliver : DeliveryCall → Bool)
    (filename : Str) (fs : FS) (mode : Nat) (u oper : Str)
    (hu : '\n' ∉ u) (hul : u.length ≤ BUFSIZ - 2)
    (hop : oper = "enable".data ∨ oper = "disable".data)
    (hlook : lookupFile fs.dir filename
      = some ⟨entry_content u "ad".data oper none, mode⟩) :
    process_queue_file dR deliver filename fs
      = (if deliver ⟨parse_name dR u, QAction.status (oper = "enable".data)⟩
         then (⟨[⟨parse_name dR u, QAction.status (oper = "enable".data)⟩], 0, true⟩,
               ⟨removeFile fs.dir filename, fs.locked⟩)
         else (⟨[⟨parse_name dR u, QAction.status (oper = "enable".data)⟩], 1, false⟩,
               fs)) := by
  have hcontent : entry_content u "ad".data oper none
      = u ++ '\n' :: ("ad".data ++ '\n' :: (oper ++ '\n' :: [])) := by
    simp [entry_content, entryFields, nl]
  have hopnl : '\n' ∉ oper := by
    rcases hop with h | h <;> subst h <;> decide
  have hopl : oper.length ≤ BUFSIZ - 2 := by
    rcases hop with h | h <;> subst h <;> decide
  have h1 := read_line_eq u ("ad".data ++ '\n' :: (oper ++ '\n' :: [])) hu hul
  have h2 := read_line_eq "ad".data (oper ++ '\n' :: []) (by decide) (by decide)
  have h3 := read_line_eq oper [] hopnl hopl
  have hcond : (oper = "enable".data || oper = "disable".data) = true := by
    rcases hop with h | h <;> subst h <;> decide
  rw [process_queue_file, hlook]
  simp only [hcontent, h1, h2, h3, hcond, if_true]

/-- A malformed entry — one of the required lines missing or unterminated —
makes the replayer exit 1 before any delivery call, leaving the state
untouched. -/
theorem process_queue_file_malformed (dR : Str) (deliver : DeliveryCall → Bool)
    (filename : Str) (fs : FS) (file : QFile)
    (hlook : lookupFile fs.dir filename = some file)
    (hbad : wellFormedEntry file.content = false) :
    process_queue_file dR deliver filename fs = (⟨[], 1, false⟩, fs) := by
  rw [wellFormedEntry] at hbad
  rw [process_queue_file, hlook]
  dsimp only
  rcases hr1 : read_line file.content with ⟨l1, r1⟩ | _
  · simp only [hr1] at hbad ⊢
    rcases hr2 : read_line r1 with ⟨l2, r2⟩ | _
    · simp only [hr2] at hbad ⊢
      by_cases hdom : l2 = "ad".data
      · subst hdom
        rw [if_pos rfl]
        rcases hr3 : read_line r2 with ⟨l3, r3⟩ | _
        · simp only [hr3] at hbad ⊢
          by_cases hpass : l3 = "password".data
          · subst hpass
            rw [if_pos rfl] at hbad
            rw [if_neg (by decide :
                  ¬(decide ("password".data = "enable".data)
                    || decide ("password".data = "disable".data)) = true),
                if_pos rfl]
            rcases hr4 : read_line r3 with ⟨l4, r4⟩ | _
            · simp only [hr4] at hbad
              exact absurd hbad (by decide)
            · simp [hr4]
          · rw [if_neg hpass] at hbad
            simp at hbad
        · simp [hr3]
      · simp [hdom]
    · simp [hr2]
  · simp [hr1]

/-! Helper lemmas for bursts, conflicts and the lock file. -/

theorem entryName_def (p : Principal) (domain oper : Str) (now : Tm) (k : Nat) :
    entryName p domain oper now k
      = seqPath ( queue_prefix p domain oper ++ queue_timestamp now) k := rfl

theorem hasName_lock_queue_eq (fs : FS) (n : Str) :
    hasName (lock_queue fs).dir n = (decide (lockName = n) || hasName fs.dir n) := by
  rw [lock_queue]
  by_cases h : hasName fs.dir lockName
  · simp only [if_pos h]
    by_cases he : lockName = n
    · subst he
      simp [h]
    · simp [he]
  · simp only [if_neg h]
    rw [hasName_cons]

theorem range_reverse_map_succ {α : Type} (g : Nat → α) (n : Nat) :
    (List.range (n + 1)).reverse.map g = g n :: (List.range n).reverse.map g := by
  simp [List.range_succ]

theorem hasName_revRangeMap_of_lt (f : Nat → Str × QFile) (k j : Nat) (hj : j < k) :
    hasName ((List.range k).reverse.map f) (f j).1 = true := by
  induction k with
  | zero => omega
  | succ k ih =>
    rw [range_reverse_map_succ, hasName_cons]
    rcases Nat.lt_succ_iff_lt_or_eq.mp hj with h | h
    · rw [ih h]
      simp
    · subst h
      simp

theorem hasName_revRangeMap_eq_false (f : Nat → Str × QFile) (k : Nat) (n : Str)
    (hne : ∀ i, i < k → (f i).1 ≠ n) :
    hasName ((List.range k).reverse.map f) n = false := by
  induction k with
  | zero => rfl
  | succ k ih =>
    rw [range_reverse_map_succ, hasName_cons,
        ih (fun i hi => hne i (by omega))]
    simp [hne k (by omega)]

/-- Conflict check with a configured queue directory: lock, scan the full
locked directory for the derived key as a name beginning, unlock, report. -/
theorem sync_queue_conflict_eq (config : Config) (qd : Str)
    (hqd : config.queue_dir = some qd) (p : Principal) (domain oper : Str)
    (fs : FS) :
    sync_queue_conflict config p domain oper fs
      = (KrbCode.ok,
         some ((lock_queue fs).dir.any fun e =>
           List.isPrefixOf ( queue_prefix p domain oper) e.1),
         ⟨(lock_queue fs).dir, false⟩) := by
  rw [sync_queue_conflict, hqd]
  rfl

theorem any_isPrefixOf_iff (d : Dir) (pfx : Str) :
    (d.any fun e => List.isPrefixOf pfx e.1) = true
      ↔ ∃ e ∈ d, List.IsPrefix pfx e.1 := by
  rw [List.any_eq_true]
  constructor
  · rintro ⟨e, he, hp⟩
    exact ⟨e, he, List.isPrefixOf_iff_prefix.mp hp⟩
  · rintro ⟨e, he, hp⟩
    exact ⟨e, he, List.isPrefixOf_iff_prefix.mpr hp⟩

/-- Burst lemma: starting from a directory free of the hundred candidate
names, `N ≤ 100` consecutive enqueues of the same change succeed and
produce exactly the entries with sequence numbers `0 … N-1` (newest
first), each with the same content and mode, on top of the locked original
directory. -/
theorem enqueueN_burst (config : Config) (qd : Str)
    (hqd : config.queue_dir = some qd) (p : Principal) (domain oper : Str)
    (password : Option Str) (now : Tm) (fs : FS)
    (habsent : ∀ i, i < 100 → hasName fs.dir (entryName p domain oper now i) = false) :
    ∀ N, N ≤ 100 → 1 ≤ N →
      enqueueN config p domain oper password now planFull N fs
        = ⟨((List.range N).reverse.map fun i =>
              (entryName p domain oper now i,
               (⟨entry_content (strip_realm (unparse_name p)) domain oper password,
                 0o600⟩ : QFile)))
            ++ (lock_queue fs).dir, false⟩ := by
  have hlockfree : ∀ i, i < 100 →
      hasName (lock_queue fs).dir (entryName p domain oper now i) = false := by
    intro i hi
    rw [hasName_lock_queue_eq, habsent i hi]
    have : lockName ≠ entryName p domain oper now i :=
      fun h => seqPath_ne_lockName _ hi h.symm
    simp [this]
  intro N
  induction N with
  | zero =>
    intro _ h
    omega
  | succ n ih =>
    intro hN h1
    by_cases hn : n = 0
    · subst hn
      rw [enqueueN,
          show enqueueN config p domain oper password now planFull 0 fs = fs from rfl,
          sync_queue_write_step config qd hqd p domain oper password now fs 0
            (by omega) (hlockfree 0 (by omega)) (fun j hj => absurd hj (by omega))]
      rw [range_reverse_map_succ]
      rfl
    · have hn1 : 1 ≤ n := by omega
      rw [enqueueN, ih (by omega) hn1]
      have hlockmem : hasName
          (((List.range n).reverse.map fun i =>
              (entryName p domain oper now i,
               (⟨entry_content (strip_realm (unparse_name p)) domain oper password,
                 0o600⟩ : QFile)))
            ++ (lock_queue fs).dir) lockName = true := by
        rw [hasName_append, hasName_lock_queue fs]
        simp
      have hdir : (lock_queue (⟨((List.range n).reverse.map fun i =>
              (entryName p domain oper now i,
               (⟨entry_content (strip_realm (unparse_name p)) domain oper password,
                 0o600⟩ : QFile)))
            ++ (lock_queue fs).dir, false⟩ : FS)).dir
          = ((List.range n).reverse.map fun i =>
              (entryName p domain oper now i,
               (⟨entry_content (strip_realm (unparse_name p)) domain oper password,
                 0o600⟩ : QFile)))
            ++ (lock_queue fs).dir :=
        lock_queue_dir_of_hasName hlockmem
      have hfreeN : hasName
          (lock_queue ⟨((List.range n).reverse.map fun i =>
              (entryName p domain oper now i,
               (⟨entry_content (strip_realm (unparse_name p)) domain oper password,
                 0o600⟩ : QFile)))
            ++ (lock_queue fs).dir, false⟩).dir
          (seqPath ( queue_prefix p domain oper ++ queue_timestamp now) n) = false := by
        rw [hdir, hasName_append, ← entryName_def,
            hasName_revRangeMap_eq_false _ n _
              (fun i hi => fun hcontra =>
                absurd (seqPath_inj (by omega) (by omega)
                  (entryName_def p domain oper now i ▸
                    entryName_def p domain oper now n ▸ hcontra)) (by omega)),
            hlockfree n (by omega)]
        rfl
      have hprevN : ∀ j, j < n → hasName
          (lock_queue ⟨((List.range n).reverse.map fun i =>
              (entryName p domain oper now i,
               (⟨entry_content (strip_realm (unparse_name p)) domain oper password,
                 0o600⟩ : QFile)))
            ++ (lock_queue fs).dir, false⟩).dir
          (seqPath ( queue_prefix p domain oper ++ queue_timestamp now) j) = true := by
        intro j hj
        rw [hdir, hasName_append, ← entryName_def]
        have := hasName_revRangeMap_of_lt
          (fun i => (entryName p domain oper now i,
            (⟨entry_content (strip_realm (unparse_name p)) domain oper password,
              0o600⟩ : QFile))) n j hj
        rw [this]
        rfl
      rw [sync_queue_write_step config qd hqd p domain oper password now
            _ n (by omega) hfreeN hprevN, hdir]
      rw [range_reverse_map_succ]
      rfl

/-! Claim theorems. -/

set_option maxRecDepth 10000 in
set_option maxHeartbeats 2000000 in
/-- C3, counterexample: the claim that `queue_prefix` strips only from the
unescaped realm separator fails on the principal with the single component
`a@b` (display string `a\@b@R`): the source's `strchr` truncation cuts at
the escaped `@`, producing the user segment `a\`, where the escape-aware
rule of §4.2 (embodied by `queue_prefix_spec`) would keep `a\@b`. -/
theorem c3_escaped_separator_counterexample :
    queue_prefix ⟨["a@b".data], "R".data⟩ "ad".data "password".data
      = "a\\-ad-password-".data
    ∧ queue_prefix_spec ⟨["a@b".data], "R".data⟩ "ad".data "password".data
      = "a\\@b-ad-password-".data
    ∧ queue_prefix ⟨["a@b".data], "R".data⟩ "ad".data "password".data
      ≠ queue_prefix_spec ⟨["a@b".data], "R".data⟩ "ad".data "password".data := by
  refine ⟨by decide, by decide, by decide⟩

set_option maxRecDepth 10000 in
set_option maxHeartbeats 2000000 in
/-- C3, amended: `queue_prefix` truncates the display string at the first
`@` character even when it is escaped; the escape-aware realm stripping —
under which an escaped `@` is not a realm boundary — is the one applied by
`sync_queue_write` to the account line written inside the queue file,
which always equals the escaped component join with the realm removed. -/
theorem c3_escaped_separator_amended :
    (∀ (comps : List Str) (realm : Str),
        strip_realm (unparse_name ⟨comps, realm⟩) = joinComps comps)
    ∧ queue_prefix ⟨["a@b".data], "R".data⟩ "ad".data "password".data
        = "a\\-ad-password-".data := by
  exact ⟨fun comps realm => strip_realm_unparse ⟨comps, realm⟩, by decide⟩

set_option maxRecDepth 10000 in
set_option maxHeartbeats 4000000 in
/-- C8: enqueuing account `test@EXAMPLE.COM`, domain `ad`, operation
`password`, payload `foobar` at 2024-01-01T00:00:00Z (`struct tm` fields
124/0/1/0/0/0) into an empty queue directory succeeds and creates exactly
the file `test-ad-password-20240101T000000Z-00` with mode 0600 and content
`test\nad\npassword\nfoobar\n` (besides the `.lock` file the locking
created), with the lock released. -/
theorem c8_concrete_enqueue_scenario :
    sync_queue_write ⟨some "/q".data, some "R".data, none, [], false⟩
        ⟨["test".data], "EXAMPLE.COM".data⟩ "ad".data "password".data
        (some "foobar".data) ⟨124, 0, 1, 0, 0, 0⟩ planFull ⟨[], false⟩
      = (KrbCode.ok,
         ⟨[("test-ad-password-20240101T000000Z-00".data,
            ⟨"test\nad\npassword\nfoobar\n".data, 0o600⟩),
           (lockName, ⟨[], 0o644⟩)], false⟩) := by
  decide

/-- C9: a queue file whose required `read_line` sequence fails — a missing
account, domain, operation or (for a password entry) password line, or a
line without its trailing newline — makes the replayer exit 1 with no
delivery call, leaving the state, and hence the file, untouched. -/
theorem c9_malformed_file_rejection (dR : Str) (deliver : DeliveryCall → Bool)
    (filename : Str) (fs : FS) (file : QFile)
    (hlook : lookupFile fs.dir filename = some file)
    (hbad : wellFormedEntry file.content = false) :
    process_queue_file dR deliver filename fs
      = (⟨[], 1, false⟩, fs) :=
  process_queue_file_malformed dR deliver filename fs file hlook hbad

set_option maxRecDepth 10000 in
set_option maxHeartbeats 2000000 in
/-- C9 witness: the file `test\nad\npassword` (password line missing
entirely) is rejected with exit 1, no delivery and unchanged state. -/
theorem c9_malformed_file_rejection_witness :
    lookupFile [("f".data, ⟨"test\nad\npassword".data, 0o600⟩)] "f".data
      = some ⟨"test\nad\npassword".data, 0o600⟩
    ∧ wellFormedEntry "test\nad\npassword".data = false
    ∧ process_queue_file "R".data (fun _ => true) "f".data
        ⟨[("f".data, ⟨"test\nad\npassword".data, 0o600⟩)], false⟩
      = (⟨[], 1, false⟩, ⟨[("f".data, ⟨"test\nad\npassword".data, 0o600⟩)], false⟩) :=
  ⟨by decide, by decide,
   c9_malformed_file_rejection "R".data (fun _ => true) "f".data
     ⟨[("f".data, ⟨"test\nad\npassword".data, 0o600⟩)], false⟩
     ⟨"test\nad\npassword".data, 0o600⟩ (by decide) (by decide)⟩

/-- C2: whenever the replayer made a delivery call that the Delivery
collaborator rejected, the run exits 1, deletes nothing, and the state —
and so the queue file — is byte-for-byte what it was. -/
theorem c2_replay_failure_preserves_entry (dR : Str)
    (deliver : DeliveryCall → Bool) (filename : Str) (fs : FS)
    (c0 : DeliveryCall)
    (hcall : c0 ∈ (process_queue_file dR deliver filename fs).1.calls)
    (hfail : deliver c0 = false) :
    (process_queue_file dR deliver filename fs).2 = fs
    ∧ (process_queue_file dR deliver filename fs).1.exitCode = 1
    ∧ (process_queue_file dR deliver filename fs).1.deleted = false := by
  rcases process_queue_file_cases dR deliver filename fs with
    ⟨h1, h2, h3, _⟩ | ⟨_, _, ⟨c', hc', hdel⟩, _⟩
  · exact ⟨h1, h2, h3⟩
  · rw [hc'] at hcall
    simp at hcall
    subst hcall
    rw [hfail] at hdel
    cases hdel

set_option maxRecDepth 10000 in
set_option maxHeartbeats 2000000 in
/-- C2 witness: replaying a well-formed password entry against a Delivery
collaborator that always fails leaves the state unchanged with exit 1. -/
theorem c2_replay_failure_preserves_entry_witness :
    (⟨parse_name "R".data "test".data, QAction.password "pw".data⟩ : DeliveryCall)
      ∈ (process_queue_file "R".data (fun _ => false) "f".data
          ⟨[("f".data, ⟨"test\nad\npassword\npw\n".data, 0o600⟩)], false⟩).1.calls
    ∧ (process_queue_file "R".data (fun _ => false) "f".data
        ⟨[("f".data, ⟨"test\nad\npassword\npw\n".data, 0o600⟩)], false⟩).2
      = ⟨[("f".data, ⟨"test\nad\npassword\npw\n".data, 0o600⟩)], false⟩ :=
  ⟨by decide,
   (c2_replay_failure_preserves_entry "R".data (fun _ => false) "f".data
     ⟨[("f".data, ⟨"test\nad\npassword\npw\n".data, 0o600⟩)], false⟩
     ⟨parse_name "R".data "test".data, QAction.password "pw".data⟩
     (by decide) rfl).1⟩

/-- C10: with no queue directory configured, `sync_queue_conflict` returns
the bare code `-1` immediately — no scan, no lock, conflict output unset —
while `sync_queue_write` returns the typed configuration error; and
`sync_chpass` (for an allowed principal with `ad_realm` set and a real
password) propagates the raw `-1` and fails before attempting delivery. -/
theorem c10_unconfigured_queue_dir (config : Config) (co : Collab)
    (p : Principal) (domain oper : Str) (password : Str) (now : Tm)
    (plan : WritePlan) (fs : FS)
    (hqd : config.queue_dir = none)
    (hrealm : config.ad_realm.isSome = true)
    (hallowed : principal_allowed config co p true = true) :
    sync_queue_conflict config p domain oper fs = (KrbCode.raw (-1), none, fs)
    ∧ sync_queue_write config p domain oper (some password) now plan fs
        = (KrbCode.configError, fs)
    ∧ sync_chpass config co p (some password) now plan fs
        = ⟨KrbCode.raw (-1), fs, false⟩ := by
  refine ⟨?_, ?_, ?_⟩
  · rw [sync_queue_conflict, hqd]
  · rw [sync_queue_write, hqd]
  · obtain ⟨r, hr⟩ := Option.isSome_iff_exists.mp hrealm
    rw [sync_chpass, hr]
    dsimp only
    rw [if_pos hallowed, sync_queue_conflict, hqd]
    rfl

set_option maxRecDepth 10000 in
set_option maxHeartbeats 2000000 in
/-- C10 witness: instantiation at a single-component principal with the
queue directory unset and `ad_realm` set. -/
theorem c10_unconfigured_queue_dir_witness :
    (⟨none, some "R".data, none, [], false⟩ : Config).queue_dir = none
    ∧ sync_queue_conflict ⟨none, some "R".data, none, [], false⟩
        ⟨["u".data], "R".data⟩ "ad".data "password".data ⟨[], false⟩
      = (KrbCode.raw (-1), none, ⟨[], false⟩) :=
  ⟨rfl,
   (c10_unconfigured_queue_dir ⟨none, some "R".data, none, [], false⟩
     ⟨fun _ _ => false, fun _ _ => KrbCode.ok⟩ ⟨["u".data], "R".data⟩
     "ad".data "password".data "pw".data ⟨124, 0, 1, 0, 0, 0⟩ planFull
     ⟨[], false⟩ rfl rfl (by decide)).1⟩

/-- C4: when a sequence slot was created but any `write` of the
newline-terminated fields fails or completes only partially, the
half-written queue file is unlinked — the directory is exactly the locked
original again — the call returns the system error, and the lock is
released on that failure path. -/
theorem c4_enqueue_partial_write_atomicity (config : Config) (qd : Str)
    (hqd : config.queue_dir = some qd) (p : Principal) (domain oper : Str)
    (password : Option Str) (now : Tm) (plan : WritePlan) (fs : FS) (k : Nat)
    (hk : k < 100)
    (hfree : hasName (lock_queue fs).dir (entryName p domain oper now k) = false)
    (hprev : ∀ j, j < k →
      hasName (lock_queue fs).dir (entryName p domain oper now j) = true)
    (hfail : (writeFields
        ⟨(entryName p domain oper now k, ⟨[], 0o600⟩) :: (lock_queue fs).dir, true⟩
        (some (entryName p domain oper now k))
        (entryFields (strip_realm (unparse_name p)) domain oper password)
        plan 0).1 = false) :
    sync_queue_write config p domain oper password now plan fs
      = (KrbCode.systemError, ⟨(lock_queue fs).dir, false⟩) :=
  sync_queue_write_write_failure config qd hqd p domain oper password now plan
    fs k hk hfree hprev hfail

set_option maxRecDepth 10000 in
set_option maxHeartbeats 2000000 in
/-- C4 witness: a plan whose first `write` transfers 0 of the requested
bytes makes the enqueue of `u@R` fail with the system error and leave the
directory with only the lock file it created. -/
theorem c4_enqueue_partial_write_atomicity_witness :
    (writeFields
        ⟨(entryName ⟨["u".data], "R".data⟩ "ad".data "password".data
            ⟨124, 0, 1, 0, 0, 0⟩ 0, ⟨[], 0o600⟩)
          :: (lock_queue ⟨[], false⟩).dir, true⟩
        (some (entryName ⟨["u".data], "R".data⟩ "ad".data "password".data
            ⟨124, 0, 1, 0, 0, 0⟩ 0))
        (entryFields (strip_realm (unparse_name ⟨["u".data], "R".data⟩))
          "ad".data "password".data (some "pw".data))
        (fun _ => some 0) 0).1 = false
    ∧ sync_queue_write ⟨some "/q".data, some "R".data, none, [], false⟩
        ⟨["u".data], "R".data⟩ "ad".data "password".data (some "pw".data)
        ⟨124, 0, 1, 0, 0, 0⟩ (fun _ => some 0) ⟨[], false⟩
      = (KrbCode.systemError, ⟨(lock_queue (⟨[], false⟩ : FS)).dir, false⟩) :=
  ⟨by decide,
   c4_enqueue_partial_write_atomicity ⟨some "/q".data, some "R".data, none, [], false⟩
     "/q".data rfl ⟨["u".data], "R".data⟩ "ad".data "password".data
     (some "pw".data) ⟨124, 0, 1, 0, 0, 0⟩ (fun _ => some 0) ⟨[], false⟩ 0
     (by omega) (by decide) (fun j hj => absurd hj (by omega)) (by decide)⟩

/-- C5: when all `MAX_QUEUE` candidate names (sequence 00 through 99)
already exist, the open loop exhausts, the invalid descriptor makes the
first `WRITE_CHECK` fail, and the call returns the system error with the
directory exactly as the locked original — no new queue entry — and the
lock released. -/
theorem c5_sequence_exhaustion (config : Config) (qd : Str)
    (hqd : config.queue_dir = some qd) (p : Principal) (domain oper : Str)
    (password : Option Str) (now : Tm) (plan : WritePlan) (fs : FS)
    (hall : ∀ i, i < 100 →
      hasName (lock_queue fs).dir (entryName p domain oper now i) = true) :
    sync_queue_write config p domain oper password now plan fs
      = (KrbCode.systemError, ⟨(lock_queue fs).dir, false⟩) :=
  sync_queue_write_exhausted config qd hqd p domain oper password now plan fs hall

set_option maxRecDepth 10000 in
set_option maxHeartbeats 2000000 in
/-- C5 witness: a directory holding the lock file and all hundred
candidate entries for `u@R`'s password change at the fixed timestamp makes
the enqueue fail with the system error and add nothing. -/
theorem c5_sequence_exhaustion_witness :
    (∀ i, i < 100 →
      hasName (lock_queue ⟨(lockName, ⟨[], 0o644⟩)
          :: ((List.range 100).reverse.map fun j =>
              (entryName ⟨["u".data], "R".data⟩ "ad".data "password".data
                ⟨124, 0, 1, 0, 0, 0⟩ j, ⟨[], 0o600⟩)), false⟩).dir
        (entryName ⟨["u".data], "R".data⟩ "ad".data "password".data
          ⟨124, 0, 1, 0, 0, 0⟩ i) = true)
    ∧ sync_queue_write ⟨some "/q".data, some "R".data, none, [], false⟩
        ⟨["u".data], "R".data⟩ "ad".data "password".data (some "pw".data)
        ⟨124, 0, 1, 0, 0, 0⟩ planFull
        ⟨(lockName, ⟨[], 0o644⟩)
          :: ((List.range 100).reverse.map fun j =>
              (entryName ⟨["u".data], "R".data⟩ "ad".data "password".data
                ⟨124, 0, 1, 0, 0, 0⟩ j, ⟨[], 0o600⟩)), false⟩
      = (KrbCode.systemError,
         ⟨(lock_queue ⟨(lockName, ⟨[], 0o644⟩)
            :: ((List.range 100).reverse.map fun j =>
                (entryName ⟨["u".data], "R".data⟩ "ad".data "password".data
                  ⟨124, 0, 1, 0, 0, 0⟩ j, ⟨[], 0o600⟩)), false⟩).dir, false⟩) := by
  have hlockdir : (lock_queue ⟨(lockName, ⟨[], 0o644⟩)
      :: ((List.range 100).reverse.map fun j =>
          (entryName ⟨["u".data], "R".data⟩ "ad".data "password".data
            ⟨124, 0, 1, 0, 0, 0⟩ j, ⟨[], 0o600⟩)), false⟩).dir
      = (lockName, (⟨[], 0o644⟩ : QFile))
        :: ((List.range 100).reverse.map fun j =>
            (entryName ⟨["u".data], "R".data⟩ "ad".data "password".data
              ⟨124, 0, 1, 0, 0, 0⟩ j, ⟨[], 0o600⟩)) :=
    lock_queue_dir_of_hasName (by rw [hasName_cons]; simp)
  have hall : ∀ i, i < 100 →
      hasName (lock_queue ⟨(lockName, ⟨[], 0o644⟩)
          :: ((List.range 100).reverse.map fun j =>
              (entryName ⟨["u".data], "R".data⟩ "ad".data "password".data
                ⟨124, 0, 1, 0, 0, 0⟩ j, ⟨[], 0o600⟩)), false⟩).dir
        (entryName ⟨["u".data], "R".data⟩ "ad".data "password".data
          ⟨124, 0, 1, 0, 0, 0⟩ i) = true := by
    intro i hi
    rw [hlockdir, hasName_cons,
        hasName_revRangeMap_of_lt
          (fun j => (entryName ⟨["u".data], "R".data⟩ "ad".data "password".data
            ⟨124, 0, 1, 0, 0, 0⟩ j, ⟨[], 0o600⟩)) 100 i hi]
    simp
  exact ⟨hall,
    c5_sequence_exhaustion ⟨some "/q".data, some "R".data, none, [], false⟩
      "/q".data rfl ⟨["u".data], "R".data⟩ "ad".data "password".data
      (some "pw".data) ⟨124, 0, 1, 0, 0, 0⟩ planFull _ hall⟩

set_option maxRecDepth 10000 in
set_option maxHeartbeats 4000000 in
/-- C7: with a queue directory configured, `sync_queue_conflict` succeeds
and reports a conflict exactly when some entry of the (locked) directory
has a name beginning with the derived key; concretely, after enqueuing a
password change for `alice`, the check for alice's password key reports
`true` and the check for alice's enable key reports `false`. -/
theorem c7_conflict_detection (config : Config) (qd : Str)
    (hqd : config.queue_dir = some qd) (p : Principal) (domain oper : Str)
    (fs : FS) :
    sync_queue_conflict config p domain oper fs
      = (KrbCode.ok,
         some ((lock_queue fs).dir.any fun e =>
           List.isPrefixOf ( queue_prefix p domain oper) e.1),
         ⟨(lock_queue fs).dir, false⟩)
    ∧ (((lock_queue fs).dir.any fun e =>
          List.isPrefixOf ( queue_prefix p domain oper) e.1) = true
        ↔ ∃ e ∈ (lock_queue fs).dir,
            List.IsPrefix ( queue_prefix p domain oper) e.1)
    ∧ (sync_queue_conflict ⟨some "/q".data, some "R".data, none, [], false⟩
         ⟨["alice".data], "R".data⟩ "ad".data "password".data
         (sync_queue_write ⟨some "/q".data, some "R".data, none, [], false⟩
           ⟨["alice".data], "R".data⟩ "ad".data "password".data
           (some "pw".data) ⟨124, 0, 1, 0, 0, 0⟩ planFull ⟨[], false⟩).2).2.1
       = some true
    ∧ (sync_queue_conflict ⟨some "/q".data, some "R".data, none, [], false⟩
         ⟨["alice".data], "R".data⟩ "ad".data "enable".data
         (sync_queue_write ⟨some "/q".data, some "R".data, none, [], false⟩
           ⟨["alice".data], "R".data⟩ "ad".data "password".data
           (some "pw".data) ⟨124, 0, 1, 0, 0, 0⟩ planFull ⟨[], false⟩).2).2.1
       = some false :=
  ⟨sync_queue_conflict_eq config qd hqd p domain oper fs,
   any_isPrefixOf_iff _ _, by decide, by decide⟩

set_option maxRecDepth 10000 in
set_option maxHeartbeats 2000000 in
/-- C7 witness: instantiation of the general part at `u@R` over the empty
directory. -/
theorem c7_conflict_detection_witness :
    (⟨some "/q".data, some "R".data, none, [], false⟩ : Config).queue_dir
      = some "/q".data
    ∧ sync_queue_conflict ⟨some "/q".data, some "R".data, none, [], false⟩
        ⟨["u".data], "R".data⟩ "ad".data "password".data ⟨[], false⟩
      = (KrbCode.ok,
         some ((lock_queue (⟨[], false⟩ : FS)).dir.any fun e =>
           List.isPrefixOf
             ( queue_prefix ⟨["u".data], "R".data⟩ "ad".data "password".data) e.1),
         ⟨(lock_queue (⟨[], false⟩ : FS)).dir, false⟩) :=
  ⟨rfl,
   (c7_conflict_detection ⟨some "/q".data, some "R".data, none, [], false⟩
     "/q".data rfl ⟨["u".data], "R".data⟩ "ad".data "password".data
     ⟨[], false⟩).1⟩

/-- C6: starting from a directory containing none of the hundred candidate
names, enqueuing the same change `N ≤ 100` times within one timestamp
yields exactly the entries with sequence numbers 00 through N-1 — same
content and mode, differing only in the sequence number — on top of the
locked original directory, and those names are pairwise distinct. -/
theorem c6_burst_uniqueness (config : Config) (qd : Str)
    (hqd : config.queue_dir = some qd) (p : Principal) (domain oper : Str)
    (password : Option Str) (now : Tm) (fs : FS) (N : Nat) (hN : N ≤ 100)
    (habsent : ∀ i, i < 100 →
      hasName fs.dir (entryName p domain oper now i) = false) :
    (1 ≤ N →
      enqueueN config p domain oper password now planFull N fs
        = ⟨((List.range N).reverse.map fun i =>
              (entryName p domain oper now i,
               (⟨entry_content (strip_realm (unparse_name p)) domain oper password,
                 0o600⟩ : QFile)))
            ++ (lock_queue fs).dir, false⟩)
    ∧ (∀ i j, i < N → j < N → i ≠ j →
        entryName p domain oper now i ≠ entryName p domain oper now j) := by
  constructor
  · intro h1
    exact enqueueN_burst config qd hqd p domain oper password now fs habsent N hN h1
  · intro i j hi hj hne hcontra
    exact hne (seqPath_inj (by omega) (by omega) hcontra)

set_option maxRecDepth 10000 in
set_option maxHeartbeats 4000000 in
/-- C6 witness: two enqueues of `u@R`'s password change into an empty
directory produce exactly the sequence-00 and sequence-01 entries. -/
theorem c6_burst_uniqueness_witness :
    (∀ i, i < 100 →
      hasName (⟨[], false⟩ : FS).dir
        (entryName ⟨["u".data], "R".data⟩ "ad".data "password".data
          ⟨124, 0, 1, 0, 0, 0⟩ i) = false)
    ∧ enqueueN ⟨some "/q".data, some "R".data, none, [], false⟩
        ⟨["u".data], "R".data⟩ "ad".data "password".data (some "pw".data)
        ⟨124, 0, 1, 0, 0, 0⟩ planFull 2 ⟨[], false⟩
      = ⟨((List.range 2).reverse.map fun i =>
            (entryName ⟨["u".data], "R".data⟩ "ad".data "password".data
              ⟨124, 0, 1, 0, 0, 0⟩ i,
             (⟨entry_content
                 (strip_realm (unparse_name ⟨["u".data], "R".data⟩))
                 "ad".data "password".data (some "pw".data), 0o600⟩ : QFile)))
          ++ (lock_queue (⟨[], false⟩ : FS)).dir, false⟩ :=
  ⟨fun i _ => rfl,
   (c6_burst_uniqueness ⟨some "/q".data, some "R".data, none, [], false⟩
     "/q".data rfl ⟨["u".data], "R".data⟩ "ad".data "password".data
     (some "pw".data) ⟨124, 0, 1, 0, 0, 0⟩ ⟨[], false⟩ 2 (by omega)
     (fun i _ => rfl)).1 (by omega)⟩

/-- C1: enqueue of a change for principal `⟨c :: cs, dR⟩` (realm equal to
the replayer context's default realm), domain `ad`, an operation from the
closed set, and a payload exactly for password changes, followed by replay
of the created entry, invokes the Delivery collaborator exactly once with
the original account, operation and payload; on delivery success the run
exits 0 and deletes exactly the entry file (restoring the pre-enqueue
locked directory), on failure it leaves the state untouched; and — third
conjunct — for every replay run whatsoever, deletion happens only on the
path where the single delivery call succeeded. -/
theorem c1_round_trip (config : Config) (qd : Str)
    (hqd : config.queue_dir = some qd) (c : Str) (cs : List Str) (dR : Str)
    (oper : Str) (password : Option Str) (now : Tm) (fs : FS) (k : Nat)
    (deliver : DeliveryCall → Bool) (hk : k < 100)
    (hfree : hasName (lock_queue fs).dir
      (entryName ⟨c :: cs, dR⟩ "ad".data oper now k) = false)
    (hprev : ∀ j, j < k → hasName (lock_queue fs).dir
      (entryName ⟨c :: cs, dR⟩ "ad".data oper now j) = true)
    (hnl : ∀ comp ∈ c :: cs, '\n' ∉ comp)
    (hlen : (joinComps (c :: cs)).length ≤ BUFSIZ - 2)
    (hop : (oper = "password".data ∧ password.isSome = true)
         ∨ ((oper = "enable".data ∨ oper = "disable".data) ∧ password = none))
    (hpw : ∀ pw, password = some pw → '\n' ∉ pw ∧ pw.length ≤ BUFSIZ - 2) :
    sync_queue_write config ⟨c :: cs, dR⟩ "ad".data oper password now planFull fs
      = (KrbCode.ok,
         ⟨(entryName ⟨c :: cs, dR⟩ "ad".data oper now k,
           ⟨entry_content (joinComps (c :: cs)) "ad".data oper password, 0o600⟩)
            :: (lock_queue fs).dir, false⟩)
    ∧ process_queue_file dR deliver
        (entryName ⟨c :: cs, dR⟩ "ad".data oper now k)
        ⟨(entryName ⟨c :: cs, dR⟩ "ad".data oper now k,
          ⟨entry_content (joinComps (c :: cs)) "ad".data oper password, 0o600⟩)
           :: (lock_queue fs).dir, false⟩
      = (if deliver (deliveryFor ⟨c :: cs, dR⟩ oper password)
         then (⟨[deliveryFor ⟨c :: cs, dR⟩ oper password], 0, true⟩,
               ⟨(lock_queue fs).dir, false⟩)
         else (⟨[deliveryFor ⟨c :: cs, dR⟩ oper password], 1, false⟩,
               ⟨(entryName ⟨c :: cs, dR⟩ "ad".data oper now k,
                 ⟨entry_content (joinComps (c :: cs)) "ad".data oper password,
                  0o600⟩)
                  :: (lock_queue fs).dir, false⟩))
    ∧ (∀ (deliver' : DeliveryCall → Bool) (filename' : Str) (fs' : FS),
        (process_queue_file dR deliver' filename' fs').2 = fs'
        ∨ ((process_queue_file dR deliver' filename' fs').1.exitCode = 0
           ∧ (∃ c', (process_queue_file dR deliver' filename' fs').1.calls = [c']
               ∧ deliver' c' = true)
           ∧ (process_queue_file dR deliver' filename' fs').2
               = ⟨removeFile fs'.dir filename', fs'.locked⟩)) := by
  have hstep := sync_queue_write_step config qd hqd ⟨c :: cs, dR⟩ "ad".data
    oper password now fs k hk hfree hprev
  rw [strip_realm_unparse] at hstep
  refine ⟨hstep, ?_, ?_⟩
  · rcases hop with ⟨hopP, hps⟩ | ⟨hopE, hpn⟩
    · obtain ⟨pw, hpweq⟩ := Option.isSome_iff_exists.mp hps
      subst hopP
      subst hpweq
      obtain ⟨hnlpw, hlenpw⟩ := hpw pw rfl
      have hproc := process_queue_file_password dR deliver
        (entryName ⟨c :: cs, dR⟩ "ad".data "password".data now k)
        ⟨(entryName ⟨c :: cs, dR⟩ "ad".data "password".data now k,
          ⟨entry_content (joinComps (c :: cs)) "ad".data "password".data
            (some pw), 0o600⟩)
           :: (lock_queue fs).dir, false⟩
        0o600 (joinComps (c :: cs)) pw (nlFree_joinComps hnl) hlen hnlpw hlenpw
        (lookupFile_head _ _ _)
      rw [hproc, parse_name_joinComps]
      simp [deliveryFor, removeFile_head]
    · subst hpn
      have hproc := process_queue_file_status dR deliver
        (entryName ⟨c :: cs, dR⟩ "ad".data oper now k)
        ⟨(entryName ⟨c :: cs, dR⟩ "ad".data oper now k,
          ⟨entry_content (joinComps (c :: cs)) "ad".data oper none, 0o600⟩)
           :: (lock_queue fs).dir, false⟩
        0o600 (joinComps (c :: cs)) oper (nlFree_joinComps hnl) hlen hopE
        (lookupFile_head _ _ _)
      rw [hproc, parse_name_joinComps]
      rcases hopE with h | h <;> subst h <;>
        simp [deliveryFor, removeFile_head]
  · intro deliver' filename' fs'
    rcases process_queue_file_cases dR deliver' filename' fs' with
      ⟨h1, _, _, _⟩ | ⟨h1, _, h3, h4⟩
    · exact Or.inl h1
    · exact Or.inr ⟨h1, h3, h4⟩

set_option maxRecDepth 10000 in
set_option maxHeartbeats 4000000 in
/-- C1 witness: the enqueue half of the round trip at the concrete
scenario, with sequence number 0 free in the empty directory. -/
theorem c1_round_trip_witness :
    hasName (lock_queue (⟨[], false⟩ : FS)).dir
      (entryName ⟨["test".data], "EXAMPLE.COM".data⟩ "ad".data "password".data
        ⟨124, 0, 1, 0, 0, 0⟩ 0) = false
    ∧ sync_queue_write ⟨some "/q".data, some "R".data, none, [], false⟩
        ⟨["test".data], "EXAMPLE.COM".data⟩ "ad".data "password".data
        (some "foobar".data) ⟨124, 0, 1, 0, 0, 0⟩ planFull ⟨[], false⟩
      = (KrbCode.ok,
         ⟨(entryName ⟨["test".data], "EXAMPLE.COM".data⟩ "ad".data
             "password".data ⟨124, 0, 1, 0, 0, 0⟩ 0,
           ⟨entry_content (joinComps ["test".data]) "ad".data "password".data
             (some "foobar".data), 0o600⟩)
            :: (lock_queue (⟨[], false⟩ : FS)).dir, false⟩) :=
  ⟨by decide,
   (c1_round_trip ⟨some "/q".data, some "R".data, none, [], false⟩ "/q".data
     rfl "test".data [] "EXAMPLE.COM".data "password".data
     (some "foobar".data) ⟨124, 0, 1, 0, 0, 0⟩ ⟨[], false⟩ 0 (fun _ => true)
     (by omega) (by decide) (fun j hj => absurd hj (by omega)) (by decide)
     (by decide) (Or.inl ⟨rfl, rfl⟩)
     (fun pw h => by cases h; exact ⟨by decide, by decide⟩)).1⟩

end KrbSync
